import Mathlib

/-
Verification of the marktplaats-scraper crawl/dedupe/recrawl logic.

The Python sources are shallowly embedded as pure Lean functions:
  * `src/mpscraper/utils.py`   -> `format_text`, `diff_hours`, `get_utc_now`,
    `remove_duplicate_listings` (datetimes are modelled as integer microsecond
    counts, pandas DataFrames as Lean lists of rows);
  * `src/mpscraper/mpscraper.py` -> `get_parent_categories`, `get_listings`
    (the browser/site is modelled by `CrawlEnv`: the site-reported listings
    count, the resolved subcategory list, and the raw result list each
    category URL serves at each page number; page-level transient faults,
    which the Python code retries on the same page until they clear, are
    modelled by their eventual successful fetch);
  * `src/mpscraper/__main__.py`  -> `checkParentCategories` (the
    zero-categories check of `main`).

Python exceptions that `get_listings` converts into `ListingsError` are
modelled with `Except`, the error carrying the state at the moment the
exception was raised, exactly as the Python exception object carries the
accumulated `listings` list.  The caller-supplied `existing_item_ids` set
object is threaded through the state as `caller_item_ids`; line 305 of
mpscraper.py copies it (`existing_item_ids.copy()`), so the working set
`item_ids` starts as a copy of its value and all later `item_ids.add`
mutations touch only the copy.
-/

namespace MP

/-- Item-id sets of the Python code (`set[str]`), modelled as lists whose
membership is what matters; insertion order is kept for executability. -/
abbrev ItemIds := List String

/-- Marktplaats category (`Category` NamedTuple, mpscraper.py line 61). -/
structure Category where
  id : Int
  url : String
deriving DecidableEq

/-- `ListingDetails` dataclass (listing.py line 4). -/
structure ListingDetails where
  description : String
  ad_type : String
  types : List String
  services : List String
  price_type : String
  price_cents : Int
  view_count : Int
  favorited_count : Int
  listed_timestamp : String
deriving DecidableEq

/-- The `location` sub-object of a raw search-result item
(keys `countryAbbreviation` and optional `cityName`, mpscraper.py 45-47). -/
structure LocationInfo where
  countryAbbreviation : String
  cityName : Option String
deriving DecidableEq

/-- One raw search-result item of the `listings` array in the page's
`__NEXT_DATA__` JSON (mpscraper.py lines 388-495).  `details` is the outcome
of the per-listing detail fetch for this item's `vipUrl`: `some d` if
`__get_listing_details` eventually succeeds (rate-limit retries loop until
success), `none` if it raises `MPError`/`ElementNotFound`, which the caller
logs and treats as a failed item. -/
structure RawListing where
  itemId : String
  categoryId : Int
  title : String
  vipUrl : String
  pictures : Option (List String)
  location : Option LocationInfo
  verticals : Option (List String)
  sellerId : Option String
  details : Option ListingDetails
deriving DecidableEq

/-- `Listing` dataclass (listing.py line 19). -/
structure Listing where
  item_id : String
  seller_id : String
  parent_category_id : Int
  child_category_id : Int
  category_verticals : List String
  ad_type : String
  title : String
  description : String
  price_type : String
  price_cents : Int
  types : List String
  services : List String
  listing_url : String
  image_urls : List String
  city_name : String
  country_code : String
  listed_timestamp : String
  crawled_timestamp : String
  view_count : Int
  favorited_count : Int
deriving DecidableEq

/-- `MARTKPLAATS_BASE_URL` (mpscraper.py line 29, sic). -/
def MARTKPLAATS_BASE_URL : String := "https://marktplaats.nl"

/-- `MARKTPLAATS_ADVERTISEMENT_PREFIX` (mpscraper.py line 40): listing ids
starting with this character are sponsored advertisement posts. -/
def advertisementChar : Char := 'a'

/-- Whitespace characters of Python's `str.split()` (ASCII range). -/
def isPythonSpace (c : Char) : Bool :=
  c = ' ' || c = '\t' || c = '\n' || c = '\x0d' || c = '\x0b' || c = '\x0c'

/-- `format_text` (utils.py line 57): collapse whitespace runs to one space,
via `" ".join(text.split())`. -/
def format_text (text : String) : String :=
  String.intercalate " " ((text.split isPythonSpace).filter (fun s => !s.isEmpty))

/-- Microseconds in a second (Python timedelta resolution). -/
def microsPerSecond : Int := 1000000

/-- Microseconds in a day. -/
def microsPerDay : Int := 86400000000

/-- `diff_hours` (utils.py line 21).  Datetimes are modelled as microsecond
counts; `last - first` yields a Python `timedelta`, normalised to
`days` (floor) and non-negative whole `seconds` (sub-second microseconds are
a separate field and are dropped by this function); the result is
`(days * 24) + (seconds / 3600)` in exact arithmetic. -/
def diff_hours (first last : Int) : ℚ :=
  let diff := last - first
  let days := diff.fdiv microsPerDay
  let seconds := (diff.fmod microsPerDay).fdiv microsPerSecond
  (days * 24 : ℚ) + (seconds : ℚ) / 3600

/-- `get_utc_now` (utils.py line 16): the ISO-8601 rendering of the current
UTC time with a `"Z"` appended.  The clock is external, so the
`datetime.now(tz=timezone.utc).isoformat()` string is the parameter; for an
aware UTC datetime it always ends in `"+00:00"`. -/
def get_utc_now (isoformat_now : String) : String :=
  isoformat_now ++ "Z"

/-- Generic keep-last drop-duplicates (the semantics of
`df.drop_duplicates(subset=["item_id"], keep="last", ignore_index=True)`):
a row survives iff no later row shares its key, relative order kept. -/
def dropDuplicatesLast {α : Type} (key : α → String) : List α → List α
  | [] => []
  | r :: rs =>
    if rs.any (fun x => key x == key r) then dropDuplicatesLast key rs
    else r :: dropDuplicatesLast key rs

/-- `remove_duplicate_listings` (utils.py line 34).  The
`df_no_dupes is not None` guard is a dead defensive check in Python
(`drop_duplicates` with `inplace=False` always returns a DataFrame), so the
`EmptyDataFrameError` branch is unreachable and the embedding is total. -/
def remove_duplicate_listings (df : List Listing) : List Listing :=
  dropDuplicatesLast Listing.item_id df

/-- One `li.CategoriesBlock-listItem` element of the landing page: the
`href` of its `a.hz-Link--navigation` child, or `none` when that anchor is
missing (mpscraper.py lines 115-121). -/
structure CategoryLiElem where
  anchorHref : Option String
deriving DecidableEq

/-- The ways `get_parent_categories` can raise: `ElementNotFound` for a
missing anchor, `IndexError` from `href_split[2]`/`href_split[3]`, and
`ValueError` from `int(...)` (the latter two are ordinary uncaught Python
exceptions). -/
inductive GPCError where
  | elementNotFound (tag_name : String)
  | indexError
  | valueError
deriving DecidableEq

/-- Parse one category `li` element (mpscraper.py lines 115-126):
`href_split = href.split("/")`, `category_id = int(href_split[2])`,
`category_url = base_url + "/l/" + href_split[3]`. -/
def parseCategoryLi (base_url : String) (e : CategoryLiElem) : Except GPCError Category :=
  match e.anchorHref with
  | none => .error (.elementNotFound "a")
  | some href =>
    let href_split := href.splitOn "/"
    match href_split.get? 2, href_split.get? 3 with
    | some s2, some s3 =>
      match s2.toInt? with
      | some category_id => .ok { id := category_id, url := base_url ++ "/l/" ++ s3 }
      | none => .error .valueError
    | _, _ => .error .indexError

/-- Accumulating loop of `get_parent_categories`: a Python `set` gathers the
parsed categories in iteration order. -/
def gpcLoop (base_url : String) : List CategoryLiElem → List Category → Except GPCError (List Category)
  | [], acc => .ok acc
  | e :: es, acc =>
    match parseCategoryLi base_url e with
    | .error err => .error err
    | .ok cat => gpcLoop base_url es (if cat ∈ acc then acc else acc ++ [cat])

/-- `MpScraper.get_parent_categories` (mpscraper.py line 102): iterate over
the `li.CategoriesBlock-listItem` elements found on the landing page and
collect the parsed categories.  An empty element list yields `.ok []`. -/
def get_parent_categories (base_url : String) (category_li_elems : List CategoryLiElem) :
    Except GPCError (List Category) :=
  gpcLoop base_url category_li_elems []

/-- `CategoriesError` (exceptions.py line 36), with its message. -/
inductive CategoriesErrorE where
  | mk (msg : String)
deriving DecidableEq

/-- The zero-categories check of `main` (main.py lines 216-218):
`if len(parent_categories) == 0: raise CategoriesError(...)`, uncaught and
hence fatal; otherwise the run continues with the same set. -/
def checkParentCategories (cats : List Category) : Except CategoriesErrorE (List Category) :=
  if cats.length = 0 then .error (.mk "No parent categories found") else .ok cats

/-- Mutable state of one `get_listings` call: the accumulated `listings`
list, the working `item_ids` set, the caller's `existing_item_ids` set
object (never touched after the line-305 copy), and the mutable
`max_listings` counter. -/
structure GLState where
  listings : List Listing
  item_ids : ItemIds
  caller_item_ids : Option ItemIds
  max_listings : Int
deriving DecidableEq

/-- The external world an entire `get_listings` call observes: the
site-reported total for the parent category (`listings_count`), the resolved
subcategory list (`__get_subcategories`, a set iterated in some order), the
sequence of raw result pages each category URL serves (fetching past the end
of the list yields an empty result list), and the wall clock
(`get_utc_now`). -/
structure CrawlEnv where
  listingsCount : Int
  subcategories : List Category
  pages : Category → List (List RawListing)
  now : String

/-- Message of the `IndexError` raised by `item_id[0]` on an empty string,
as wrapped by the final generic handler (mpscraper.py lines 560-564). -/
def indexErrorMsg : String := "Error getting listings: string index out of range"

/-- Message of `UnexpectedCategoryId(got, exp)` (exceptions.py line 78), as
wrapped by the final generic handler (mpscraper.py lines 560-564). -/
def unexpectedCategoryIdMsg (got exp : Int) : String :=
  "Error getting listings: Unexpected category ID, expected " ++ toString exp ++
    " but got " ++ toString got

/-- Assemble a `Listing` from the raw search-result fields and the fetched
details (mpscraper.py lines 477-520). -/
def buildListing (parent : Category) (r : RawListing) (d : ListingDetails) (now : String) :
    Listing :=
  { item_id := r.itemId
    seller_id := r.sellerId.getD ""
    parent_category_id := parent.id
    child_category_id := r.categoryId
    category_verticals := r.verticals.getD []
    ad_type := d.ad_type
    title := format_text r.title
    description := format_text d.description
    price_type := d.price_type
    price_cents := d.price_cents
    types := d.types
    services := d.services
    listing_url := MARTKPLAATS_BASE_URL ++ r.vipUrl
    image_urls := r.pictures.getD []
    city_name := match r.location with
      | some loc => loc.cityName.getD ""
      | none => ""
    country_code := match r.location with
      | some loc => loc.countryAbbreviation
      | none => ""
    listed_timestamp := d.listed_timestamp
    crawled_timestamp := now
    view_count := d.view_count
    favorited_count := d.favorited_count }

/-- Body of the per-item loop (mpscraper.py lines 405-524), after the
`len(listings) == limit` break check.  `item_id[0]` on an empty id raises
`IndexError`; a known id is skipped, decrementing `max_listings` only when
`limit == listings_count`; a category mismatch raises
`UnexpectedCategoryId`; a failed detail fetch decrements `max_listings` and
skips; otherwise the listing is appended and its id recorded.  Raised
exceptions reach the generic handler of the page loop, which wraps the
accumulated listings into a `ListingsError`; the `.error` payload carries
the state at the raise together with the wrapped message. -/
def processItem (parent : Category) (cid : Int) (limit count : Int) (now : String)
    (st : GLState) (r : RawListing) : Except (GLState × String) GLState :=
  match r.itemId.data with
  | [] => .error (st, indexErrorMsg)
  | c :: _ =>
    if c = advertisementChar then .ok st
    else if r.itemId ∈ st.item_ids then
      .ok { st with max_listings :=
              if limit = count then st.max_listings - 1 else st.max_listings }
    else if r.categoryId ≠ cid then
      .error (st, unexpectedCategoryIdMsg r.categoryId cid)
    else
      match r.details with
      | none => .ok { st with max_listings := st.max_listings - 1 }
      | some d =>
        .ok { st with
                listings := st.listings ++ [buildListing parent r d now]
                item_ids := st.item_ids ++ [r.itemId] }

/-- The `for res_listing in res_listings` loop (mpscraper.py lines
401-524): before each item, break out of the page once
`len(listings) == limit`. -/
def processPageItems (parent : Category) (cid : Int) (limit count : Int) (now : String) :
    List RawListing → GLState → Except (GLState × String) GLState
  | [], st => .ok st
  | r :: rs, st =>
    if (st.listings.length : Int) = limit then .ok st
    else
      match processItem parent cid limit count now st r with
      | .error e => .error e
      | .ok st' => processPageItems parent cid limit count now rs st'

/-- The `while len(listings) < max_listings` page loop of one category
(mpscraper.py lines 337-526): check the loop condition, fetch the next page
(past the provided pages the site serves an empty result list), break out of
the category on an empty result list, otherwise process the page's items and
continue with the next page number. -/
def crawlCategoryPages (parent category : Category) (limit count : Int) (now : String) :
    List (List RawListing) → GLState → Except (GLState × String) GLState
  | [], st => .ok st
  | page :: rest, st =>
    if (st.listings.length : Int) < st.max_listings then
      if page.isEmpty then .ok st
      else
        match processPageItems parent category.id limit count now page st with
        | .error e => .error e
        | .ok st' => crawlCategoryPages parent category limit count now rest st'
    else .ok st

/-- The `for category_id, category_url in categories` loop (mpscraper.py
line 336): run the page loop of each target category in turn, threading the
shared state. -/
def crawlCategories (env : CrawlEnv) (parent : Category) (limit : Int) :
    List Category → GLState → Except (GLState × String) GLState
  | [], st => .ok st
  | c :: cs, st =>
    match crawlCategoryPages parent c limit env.listingsCount env.now (env.pages c) st with
    | .error e => .error e
    | .ok st' => crawlCategories env parent limit cs st'

/-- Limit resolution (mpscraper.py lines 308-310):
`if limit > listings_count or limit == 0: limit = listings_count`. -/
def clampLimit (listingsCount limit : Int) : Int :=
  if limit > listingsCount ∨ limit = 0 then listingsCount else limit

/-- Initial state (mpscraper.py lines 304-312): empty listings, `item_ids`
a copy of the caller's set (or a fresh empty set when `None`),
`max_listings = limit`. -/
def initState (existing : Option ItemIds) (max_listings : Int) : GLState :=
  { listings := []
    item_ids := existing.getD []
    caller_item_ids := existing
    max_listings := max_listings }

/-- Target category resolution (mpscraper.py lines 316-326): the resolved
subcategories, or the parent category itself when there are none. -/
def categoriesToCrawl (env : CrawlEnv) (parent : Category) : List Category :=
  if env.subcategories.length > 0 then env.subcategories else [parent]

/-- The whole crawling core of `MpScraper.get_listings` (mpscraper.py line
300), from the limit clamp to the final state or the state captured by a
raised, `ListingsError`-wrapped exception. -/
def get_listings_run (env : CrawlEnv) (parent : Category) (limit0 : Int)
    (existing : Option ItemIds) : Except (GLState × String) GLState :=
  let limit := clampLimit env.listingsCount limit0
  crawlCategories env parent limit (categoriesToCrawl env parent) (initState existing limit)

/-- Observable outcome of `get_listings`: a normal return, or a
`ListingsError` (exceptions.py line 4) carrying the accumulated listings and
the message. -/
inductive GLResult where
  | ok (listings : List Listing)
  | listingsError (listings : List Listing) (msg : String)
deriving DecidableEq

/-- `MpScraper.get_listings` as observed by its caller: the result (normal
or recoverable-error) paired with the caller's `existing_item_ids` set
object after the call. -/
def get_listings (env : CrawlEnv) (parent : Category) (limit0 : Int)
    (existing : Option ItemIds) : GLResult × Option ItemIds :=
  match get_listings_run env parent limit0 existing with
  | .ok st => (.ok st.listings, st.caller_item_ids)
  | .error (st, msg) => (.listingsError st.listings msg, st.caller_item_ids)

/-- The listings a `GLResult` carries (on both the normal and the
recoverable-error path). -/
def resultListings : GLResult → List Listing
  | .ok l => l
  | .listingsError l _ => l

/-- The raw items a call would traverse if no limit or error stopped it:
all pages of all target categories, in traversal order. -/
def crawlStream (env : CrawlEnv) (parent : Category) : List RawListing :=
  (categoriesToCrawl env parent).flatMap fun c => (env.pages c).flatten

/-- A raw item is clean for exclusion set `excl` and category id `cid`:
well-formed (non-empty id, matching category id), fresh (not sponsored, not
excluded) and detail-fetchable. -/
def cleanItem (excl : ItemIds) (cid : Int) (r : RawListing) : Prop :=
  r.itemId ≠ "" ∧ r.itemId.data.head? ≠ some advertisementChar ∧
    r.categoryId = cid ∧ r.details.isSome = true ∧ r.itemId ∉ excl

instance (excl : ItemIds) (cid : Int) (r : RawListing) : Decidable (cleanItem excl cid r) := by
  unfold cleanItem
  infer_instance

/-- State invariant of a `get_listings` call with clamped limit `limit` and
exclusion set `excl`: `max_listings` never exceeds the clamped limit, the
accumulated item ids are distinct, recorded in `item_ids`, and disjoint from
`excl`, which is itself recorded in `item_ids`. -/
def StInv (excl : ItemIds) (limit : Int) (st : GLState) : Prop :=
  st.max_listings ≤ limit ∧
  (st.listings.map Listing.item_id).Nodup ∧
  (∀ id, id ∈ st.listings.map Listing.item_id → id ∈ st.item_ids) ∧
  (∀ id, id ∈ excl → id ∈ st.item_ids) ∧
  (∀ id, id ∈ st.listings.map Listing.item_id → id ∉ excl)

/-- Final listing count and final `max_listings` of a normally-returning
call (used to observe the decremented effective limit). -/
def runFinalStats (env : CrawlEnv) (parent : Category) (limit0 : Int)
    (existing : Option ItemIds) : Option (Nat × Int) :=
  match get_listings_run env parent limit0 existing with
  | .ok st => some (st.listings.length, st.max_listings)
  | .error _ => none

/-- Shared details record for concrete test environments. -/
def dTest : ListingDetails :=
  { description := "a nice  description"
    ad_type := "NORMAL"
    types := ["t1"]
    services := []
    price_type := "FIXED"
    price_cents := 1500
    view_count := 7
    favorited_count := 1
    listed_timestamp := "2026-01-01" }

/-- Build a concrete raw item for test environments. -/
def rawTest (id : String) (cat : Int) (det : Option ListingDetails) : RawListing :=
  { itemId := id
    categoryId := cat
    title := "some  title"
    vipUrl := "/v/item"
    pictures := none
    location := none
    verticals := none
    sellerId := none
    details := det }

/-- Concrete parent category for test environments. -/
def catTest : Category :=
  { id := 322, url := "https://marktplaats.nl/l/computers-en-software" }

/-- Environment refuting C3: site total 10, one page with a
detail-fetch-failing item followed by two good ones. -/
def envC3 : CrawlEnv :=
  { listingsCount := 10
    subcategories := []
    pages := fun c =>
      if c.id = 322 then
        [[rawTest "f1" 322 none, rawTest "b1" 322 (some dTest), rawTest "c1" 322 (some dTest)]]
      else []
    now := "2026-02-02T00:00:00+00:00Z" }

/-- Environment for the C4 witness: a single raw item whose reported
category id 999 differs from the crawled category 322. -/
def envC4 : CrawlEnv :=
  { listingsCount := 10
    subcategories := []
    pages := fun c => if c.id = 322 then [[rawTest "x1" 999 (some dTest)]] else []
    now := "2026-02-02T00:00:00+00:00Z" }

/-- Environment for the C10 witness: a single raw item with an empty
`itemId` (which is even a member of the caller's exclusion set, showing the
abort happens before the known-id skip). -/
def envC10 : CrawlEnv :=
  { listingsCount := 10
    subcategories := []
    pages := fun c => if c.id = 322 then [[rawTest "" 322 (some dTest)]] else []
    now := "2026-02-02T00:00:00+00:00Z" }

/-- Environment for the C1 witness: three clean fresh items on two pages,
site total 3, exclusion set containing an unrelated id. -/
def envC1 : CrawlEnv :=
  { listingsCount := 3
    subcategories := []
    pages := fun c =>
      if c.id = 322 then
        [[rawTest "m1" 322 (some dTest), rawTest "m2" 322 (some dTest)],
         [rawTest "m3" 322 (some dTest)]]
      else []
    now := "2026-02-02T00:00:00+00:00Z" }

/-- Concrete state for the C2 witness: the raw item's id is already known. -/
def stC2 : GLState :=
  { listings := [], item_ids := ["k1"], caller_item_ids := some ["k1"], max_listings := 5 }

/-- Concrete raw item for the C2 witness. -/
def rC2 : RawListing := rawTest "k1" 322 (some dTest)

/-! ## Case analyses of the per-item step -/

theorem processItem_error_eq {parent : Category} {cid limit count : Int} {now : String}
    {st st' : GLState} {r : RawListing} {msg : String}
    (h : processItem parent cid limit count now st r = .error (st', msg)) : st' = st := by
  unfold processItem at h
  split at h
  · injection h with h1
    injection h1 with h2 h3
    exact h2.symm
  · rename_i c cs hdata
    by_cases ha : c = advertisementChar
    · rw [if_pos ha] at h
      exact absurd h (by simp)
    · rw [if_neg ha] at h
      by_cases hm : r.itemId ∈ st.item_ids
      · rw [if_pos hm] at h
        exact absurd h (by simp)
      · rw [if_neg hm] at h
        by_cases hc : r.categoryId ≠ cid
        · rw [if_pos hc] at h
          injection h with h1
          injection h1 with h2 h3
          exact h2.symm
        · rw [if_neg hc] at h
          split at h
          · exact absurd h (by simp)
          · exact absurd h (by simp)

theorem processItem_ok_cases {parent : Category} {cid limit count : Int} {now : String}
    {st st' : GLState} {r : RawListing}
    (h : processItem parent cid limit count now st r = .ok st') :
    st' = st ∨
    st' = { st with max_listings := st.max_listings - 1 } ∨
    (∃ d, r.details = some d ∧ r.itemId ∉ st.item_ids ∧
      st' = { st with listings := st.listings ++ [buildListing parent r d now],
                      item_ids := st.item_ids ++ [r.itemId] }) := by
  unfold processItem at h
  split at h
  · exact absurd h (by simp)
  · rename_i c cs hdata
    by_cases ha : c = advertisementChar
    · rw [if_pos ha] at h
      injection h with h1
      exact Or.inl h1.symm
    · rw [if_neg ha] at h
      by_cases hm : r.itemId ∈ st.item_ids
      · rw [if_pos hm] at h
        injection h with h1
        by_cases hlc : limit = count
        · rw [if_pos hlc] at h1
          exact Or.inr (Or.inl h1.symm)
        · rw [if_neg hlc] at h1
          exact Or.inl h1.symm
      · rw [if_neg hm] at h
        by_cases hc : r.categoryId ≠ cid
        · rw [if_pos hc] at h
          exact absurd h (by simp)
        · rw [if_neg hc] at h
          split at h
          · injection h with h1
            exact Or.inr (Or.inl h1.symm)
          · rename_i d hd
            injection h with h1
            exact Or.inr (Or.inr ⟨d, hd, hm, h1.symm⟩)

/-! ## The caller's set object is never touched -/

theorem processItem_ok_caller {parent : Category} {cid limit count : Int} {now : String}
    {st st' : GLState} {r : RawListing}
    (h : processItem parent cid limit count now st r = .ok st') :
    st'.caller_item_ids = st.caller_item_ids := by
  rcases processItem_ok_cases h with h1 | h1 | ⟨d, _, _, h1⟩ <;> subst h1 <;> rfl

theorem processPageItems_caller (parent : Category) (cid limit count : Int) (now : String)
    (page : List RawListing) :
    ∀ st : GLState,
      (∀ st', processPageItems parent cid limit count now page st = .ok st' →
        st'.caller_item_ids = st.caller_item_ids) ∧
      (∀ st' msg, processPageItems parent cid limit count now page st = .error (st', msg) →
        st'.caller_item_ids = st.caller_item_ids) := by
  induction page with
  | nil =>
    intro st
    constructor
    · intro st' h
      simp only [processPageItems] at h
      injection h with h1
      rw [← h1]
    · intro st' msg h
      simp only [processPageItems] at h
      exact absurd h (by simp)
  | cons r rs ih =>
    intro st
    constructor
    · intro st' h
      simp only [processPageItems] at h
      by_cases hb : (st.listings.length : Int) = limit
      · rw [if_pos hb] at h
        injection h with h1
        rw [← h1]
      · rw [if_neg hb] at h
        cases hpi : processItem parent cid limit count now st r with
        | error e =>
          rw [hpi] at h
          exact absurd h (by simp)
        | ok st₁ =>
          rw [hpi] at h
          rw [(ih st₁).1 st' h, processItem_ok_caller hpi]
    · intro st' msg h
      simp only [processPageItems] at h
      by_cases hb : (st.listings.length : Int) = limit
      · rw [if_pos hb] at h
        exact absurd h (by simp)
      · rw [if_neg hb] at h
        cases hpi : processItem parent cid limit count now st r with
        | error e =>
          rw [hpi] at h
          injection h with h1
          rw [h1] at hpi
          rw [processItem_error_eq hpi]
        | ok st₁ =>
          rw [hpi] at h
          rw [(ih st₁).2 st' msg h, processItem_ok_caller hpi]

theorem crawlCategoryPages_caller (parent category : Category) (limit count : Int) (now : String)
    (pages : List (List RawListing)) :
    ∀ st : GLState,
      (∀ st', crawlCategoryPages parent category limit count now pages st = .ok st' →
        st'.caller_item_ids = st.caller_item_ids) ∧
      (∀ st' msg, crawlCategoryPages parent category limit count now pages st = .error (st', msg) →
        st'.caller_item_ids = st.caller_item_ids) := by
  induction pages with
  | nil =>
    intro st
    constructor
    · intro st' h
      simp only [crawlCategoryPages] at h
      injection h with h1
      rw [← h1]
    · intro st' msg h
      simp only [crawlCategoryPages] at h
      exact absurd h (by simp)
  | cons page rest ih =>
    intro st
    constructor
    · intro st' h
      simp only [crawlCategoryPages] at h
      by_cases hw : (st.listings.length : Int) < st.max_listings
      · rw [if_pos hw] at h
        by_cases he : page.isEmpty
        · rw [if_pos he] at h
          injection h with h1
          rw [← h1]
        · rw [if_neg he] at h
          cases hpp : processPageItems parent category.id limit count now page st with
          | error e =>
            rw [hpp] at h
            exact absurd h (by simp)
          | ok st₁ =>
            rw [hpp] at h
            rw [(ih st₁).1 st' h,
              (processPageItems_caller parent category.id limit count now page st).1 st₁ hpp]
      · rw [if_neg hw] at h
        injection h with h1
        rw [← h1]
    · intro st' msg h
      simp only [crawlCategoryPages] at h
      by_cases hw : (st.listings.length : Int) < st.max_listings
      · rw [if_pos hw] at h
        by_cases he : page.isEmpty
        · rw [if_pos he] at h
          exact absurd h (by simp)
        · rw [if_neg he] at h
          cases hpp : processPageItems parent category.id limit count now page st with
          | error e =>
            rw [hpp] at h
            injection h with h1
            rw [h1] at hpp
            exact (processPageItems_caller parent category.id limit count now page st).2
              st' msg hpp
          | ok st₁ =>
            rw [hpp] at h
            rw [(ih st₁).2 st' msg h,
              (processPageItems_caller parent category.id limit count now page st).1 st₁ hpp]
      · rw [if_neg hw] at h
        exact absurd h (by simp)

theorem crawlCategories_caller (env : CrawlEnv) (parent : Category) (limit : Int)
    (cats : List Category) :
    ∀ st : GLState,
      (∀ st', crawlCategories env parent limit cats st = .ok st' →
        st'.caller_item_ids = st.caller_item_ids) ∧
      (∀ st' msg, crawlCategories env parent limit cats st = .error (st', msg) →
        st'.caller_item_ids = st.caller_item_ids) := by
  induction cats with
  | nil =>
    intro st
    constructor
    · intro st' h
      simp only [crawlCategories] at h
      injection h with h1
      rw [← h1]
    · intro st' msg h
      simp only [crawlCategories] at h
      exact absurd h (by simp)
  | cons c cs ih =>
    intro st
    constructor
    · intro st' h
      simp only [crawlCategories] at h
      cases hcp : crawlCategoryPages parent c limit env.listingsCount env.now (env.pages c) st with
      | error e =>
        rw [hcp] at h
        exact absurd h (by simp)
      | ok st₁ =>
        rw [hcp] at h
        rw [(ih st₁).1 st' h,
          (crawlCategoryPages_caller parent c limit env.listingsCount env.now
            (env.pages c) st).1 st₁ hcp]
    · intro st' msg h
      simp only [crawlCategories] at h
      cases hcp : crawlCategoryPages parent c limit env.listingsCount env.now (env.pages c) st with
      | error e =>
        rw [hcp] at h
        injection h with h1
        rw [h1] at hcp
        exact (crawlCategoryPages_caller parent c limit env.listingsCount env.now
          (env.pages c) st).2 st' msg hcp
      | ok st₁ =>
        rw [hcp] at h
        rw [(ih st₁).2 st' msg h,
          (crawlCategoryPages_caller parent c limit env.listingsCount env.now
            (env.pages c) st).1 st₁ hcp]

/-- C9: the caller-supplied `existing_item_ids` set is never mutated by
`get_listings`: the call copies it (mpscraper.py line 305) and only the copy
is updated, so after the call, on both the normal-return and the
error-with-partial-results path, the caller's set equals its value before
the call. -/
theorem c9_existing_item_ids_unchanged (env : CrawlEnv) (parent : Category) (limit0 : Int)
    (existing : Option ItemIds) :
    (get_listings env parent limit0 existing).2 = existing := by
  unfold get_listings
  cases hrun : get_listings_run env parent limit0 existing with
  | ok st =>
    simp only [get_listings_run] at hrun
    have := (crawlCategories_caller env parent (clampLimit env.listingsCount limit0)
      (categoriesToCrawl env parent)
      (initState existing (clampLimit env.listingsCount limit0))).1 st hrun
    simp [this, initState]
  | error e =>
    rcases e with ⟨st, msg⟩
    simp only [get_listings_run] at hrun
    have := (crawlCategories_caller env parent (clampLimit env.listingsCount limit0)
      (categoriesToCrawl env parent)
      (initState existing (clampLimit env.listingsCount limit0))).2 st msg hrun
    simp [this, initState]

/-! ## Small string helper -/

theorem str_empty_of_data_nil {s : String} (h : s.data = []) : s = "" := by
  cases s with
  | mk l => cases h; rfl

theorem buildListing_item_id (parent : Category) (r : RawListing) (d : ListingDetails)
    (now : String) : (buildListing parent r d now).item_id = r.itemId := rfl

/-! ## The state invariant is preserved by every step -/

theorem stInv_processItem_ok {parent : Category} {cid limit count : Int} {now : String}
    {excl : ItemIds} {st st' : GLState} {r : RawListing}
    (hInv : StInv excl limit st)
    (h : processItem parent cid limit count now st r = .ok st') :
    StInv excl limit st' ∧ st'.max_listings ≤ st.max_listings ∧
      st.listings.length ≤ st'.listings.length ∧
      st'.listings.length ≤ st.listings.length + 1 := by
  obtain ⟨hmax, hnodup, hsub, hexcl, hdisj⟩ := hInv
  rcases processItem_ok_cases h with h1 | h1 | ⟨d, hd, hmem, h1⟩ <;> subst h1
  · exact ⟨⟨hmax, hnodup, hsub, hexcl, hdisj⟩, le_refl _, le_refl _, Nat.le_succ _⟩
  · refine ⟨⟨?_, hnodup, hsub, hexcl, hdisj⟩, ?_, le_refl _, Nat.le_succ _⟩
    · show st.max_listings - 1 ≤ limit
      omega
    · show st.max_listings - 1 ≤ st.max_listings
      omega
  · refine ⟨⟨hmax, ?_, ?_, ?_, ?_⟩, le_refl _, ?_, ?_⟩
    · simp only [List.map_append, List.map_cons, List.map_nil, buildListing_item_id]
      rw [List.nodup_append, List.disjoint_singleton]
      refine ⟨hnodup, List.nodup_singleton _, ?_⟩
      intro hcon
      exact hmem (hsub _ hcon)
    · intro id hid
      simp only [List.map_append, List.map_cons, List.map_nil, buildListing_item_id,
        List.mem_append, List.mem_singleton] at hid
      rcases hid with hid | hid
      · exact List.mem_append_left _ (hsub id hid)
      · subst hid
        exact List.mem_append_right _ (List.mem_singleton_self _)
    · intro id hid
      exact List.mem_append_left _ (hexcl id hid)
    · intro id hid
      simp only [List.map_append, List.map_cons, List.map_nil, buildListing_item_id,
        List.mem_append, List.mem_singleton] at hid
      rcases hid with hid | hid
      · exact hdisj id hid
      · subst hid
        intro hcon
        exact hmem (hexcl _ hcon)
    · simp only [List.length_append, List.length_cons, List.length_nil]
      omega
    · simp only [List.length_append, List.length_cons, List.length_nil]
      omega

theorem stInv_processPageItems (parent : Category) (cid limit count : Int) (now : String)
    (excl : ItemIds) (page : List RawListing) :
    ∀ st : GLState, StInv excl limit st → (st.listings.length : Int) ≤ limit →
      (∀ st', processPageItems parent cid limit count now page st = .ok st' →
        StInv excl limit st' ∧ (st'.listings.length : Int) ≤ limit ∧
          st'.max_listings ≤ st.max_listings) ∧
      (∀ st' msg, processPageItems parent cid limit count now page st = .error (st', msg) →
        StInv excl limit st' ∧ (st'.listings.length : Int) ≤ limit) := by
  induction page with
  | nil =>
    intro st hInv hlen
    constructor
    · intro st' h
      simp only [processPageItems] at h
      injection h with h1
      cases h1
      exact ⟨hInv, hlen, le_refl _⟩
    · intro st' msg h
      simp only [processPageItems] at h
      exact absurd h (by simp)
  | cons r rs ih =>
    intro st hInv hlen
    constructor
    · intro st' h
      simp only [processPageItems] at h
      by_cases hb : (st.listings.length : Int) = limit
      · rw [if_pos hb] at h
        injection h with h1
        cases h1
        exact ⟨hInv, hlen, le_refl _⟩
      · rw [if_neg hb] at h
        cases hpi : processItem parent cid limit count now st r with
        | error e =>
          rw [hpi] at h
          exact absurd h (by simp)
        | ok st₁ =>
          rw [hpi] at h
          obtain ⟨hInv₁, hmax₁, hlow₁, hhigh₁⟩ := stInv_processItem_ok hInv hpi
          have hlen₁ : (st₁.listings.length : Int) ≤ limit := by omega
          obtain ⟨hi', hl', hm'⟩ := (ih st₁ hInv₁ hlen₁).1 st' h
          exact ⟨hi', hl', le_trans hm' hmax₁⟩
    · intro st' msg h
      simp only [processPageItems] at h
      by_cases hb : (st.listings.length : Int) = limit
      · rw [if_pos hb] at h
        exact absurd h (by simp)
      · rw [if_neg hb] at h
        cases hpi : processItem parent cid limit count now st r with
        | error e =>
          rw [hpi] at h
          injection h with h1
          rw [h1] at hpi
          rw [processItem_error_eq hpi]
          exact ⟨hInv, hlen⟩
        | ok st₁ =>
          rw [hpi] at h
          obtain ⟨hInv₁, hmax₁, hlow₁, hhigh₁⟩ := stInv_processItem_ok hInv hpi
          have hlen₁ : (st₁.listings.length : Int) ≤ limit := by omega
          exact (ih st₁ hInv₁ hlen₁).2 st' msg h

theorem stInv_crawlCategoryPages (parent category : Category) (limit count : Int) (now : String)
    (excl : ItemIds) (pages : List (List RawListing)) :
    ∀ st : GLState, StInv excl limit st → (st.listings.length : Int) ≤ max limit 0 →
      (∀ st', crawlCategoryPages parent category limit count now pages st = .ok st' →
        StInv excl limit st' ∧ (st'.listings.length : Int) ≤ max limit 0) ∧
      (∀ st' msg, crawlCategoryPages parent category limit count now pages st = .error (st', msg) →
        StInv excl limit st' ∧ (st'.listings.length : Int) ≤ max limit 0) := by
  induction pages with
  | nil =>
    intro st hInv hlen
    constructor
    · intro st' h
      simp only [crawlCategoryPages] at h
      injection h with h1
      cases h1
      exact ⟨hInv, hlen⟩
    · intro st' msg h
      simp only [crawlCategoryPages] at h
      exact absurd h (by simp)
  | cons page rest ih =>
    intro st hInv hlen
    have hmaxlim : st.max_listings ≤ limit := hInv.1
    constructor
    · intro st' h
      simp only [crawlCategoryPages] at h
      by_cases hw : (st.listings.length : Int) < st.max_listings
      · rw [if_pos hw] at h
        have hlenlim : (st.listings.length : Int) ≤ limit := by omega
        by_cases he : page.isEmpty
        · rw [if_pos he] at h
          injection h with h1
          cases h1
          exact ⟨hInv, hlen⟩
        · rw [if_neg he] at h
          cases hpp : processPageItems parent category.id limit count now page st with
          | error e =>
            rw [hpp] at h
            exact absurd h (by simp)
          | ok st₁ =>
            rw [hpp] at h
            obtain ⟨hInv₁, hlen₁, _⟩ :=
              (stInv_processPageItems parent category.id limit count now excl page st
                hInv hlenlim).1 st₁ hpp
            exact (ih st₁ hInv₁ (le_trans hlen₁ (le_max_left limit 0))).1 st' h
      · rw [if_neg hw] at h
        injection h with h1
        cases h1
        exact ⟨hInv, hlen⟩
    · intro st' msg h
      simp only [crawlCategoryPages] at h
      by_cases hw : (st.listings.length : Int) < st.max_listings
      · rw [if_pos hw] at h
        have hlenlim : (st.listings.length : Int) ≤ limit := by omega
        by_cases he : page.isEmpty
        · rw [if_pos he] at h
          exact absurd h (by simp)
        · rw [if_neg he] at h
          cases hpp : processPageItems parent category.id limit count now page st with
          | error e =>
            rw [hpp] at h
            injection h with h1
            rw [h1] at hpp
            obtain ⟨hInv', hlen'⟩ :=
              (stInv_processPageItems parent category.id limit count now excl page st
                hInv hlenlim).2 st' msg hpp
            exact ⟨hInv', le_trans hlen' (le_max_left limit 0)⟩
          | ok st₁ =>
            rw [hpp] at h
            obtain ⟨hInv₁, hlen₁, _⟩ :=
              (stInv_processPageItems parent category.id limit count now excl page st
                hInv hlenlim).1 st₁ hpp
            exact (ih st₁ hInv₁ (le_trans hlen₁ (le_max_left limit 0))).2 st' msg h
      · rw [if_neg hw] at h
        exact absurd h (by simp)

theorem stInv_crawlCategories (env : CrawlEnv) (parent : Category) (limit : Int)
    (excl : ItemIds) (cats : List Category) :
    ∀ st : GLState, StInv excl limit st → (st.listings.length : Int) ≤ max limit 0 →
      (∀ st', crawlCategories env parent limit cats st = .ok st' →
        StInv excl limit st' ∧ (st'.listings.length : Int) ≤ max limit 0) ∧
      (∀ st' msg, crawlCategories env parent limit cats st = .error (st', msg) →
        StInv excl limit st' ∧ (st'.listings.length : Int) ≤ max limit 0) := by
  induction cats with
  | nil =>
    intro st hInv hlen
    constructor
    · intro st' h
      simp only [crawlCategories] at h
      injection h with h1
      cases h1
      exact ⟨hInv, hlen⟩
    · intro st' msg h
      simp only [crawlCategories] at h
      exact absurd h (by simp)
  | cons c cs ih =>
    intro st hInv hlen
    constructor
    · intro st' h
      simp only [crawlCategories] at h
      cases hcp : crawlCategoryPages parent c limit env.listingsCount env.now (env.pages c) st with
      | error e =>
        rw [hcp] at h
        exact absurd h (by simp)
      | ok st₁ =>
        rw [hcp] at h
        obtain ⟨hInv₁, hlen₁⟩ :=
          (stInv_crawlCategoryPages parent c limit env.listingsCount env.now excl
            (env.pages c) st hInv hlen).1 st₁ hcp
        exact (ih st₁ hInv₁ hlen₁).1 st' h
    · intro st' msg h
      simp only [crawlCategories] at h
      cases hcp : crawlCategoryPages parent c limit env.listingsCount env.now (env.pages c) st with
      | error e =>
        rw [hcp] at h
        injection h with h1
        rw [h1] at hcp
        exact (stInv_crawlCategoryPages parent c limit env.listingsCount env.now excl
          (env.pages c) st hInv hlen).2 st' msg hcp
      | ok st₁ =>
        rw [hcp] at h
        obtain ⟨hInv₁, hlen₁⟩ :=
          (stInv_crawlCategoryPages parent c limit env.listingsCount env.now excl
            (env.pages c) st hInv hlen).1 st₁ hcp
        exact (ih st₁ hInv₁ hlen₁).2 st' msg h

theorem stInv_initState (existing : Option ItemIds) (limit : Int) :
    StInv (existing.getD []) limit (initState existing limit) := by
  refine ⟨le_refl _, List.nodup_nil, ?_, ?_, ?_⟩
  · intro id hid
    simp only [initState, List.map_nil] at hid
    cases hid
  · intro id hid
    simpa only [initState] using hid
  · intro id hid
    simp only [initState, List.map_nil] at hid
    cases hid

/-- Structural facts holding for every `get_listings` call: the carried
listings (on both the normal and the error path) have pairwise-distinct
`item_id`s, none of which lies in the caller's exclusion set, and their
count never exceeds the clamped limit (which bounds `max_listings` from
above throughout). -/
theorem get_listings_structural (env : CrawlEnv) (parent : Category) (limit0 : Int)
    (existing : Option ItemIds) :
    ((resultListings (get_listings env parent limit0 existing).1).map Listing.item_id).Nodup ∧
    (∀ id, id ∈ (resultListings (get_listings env parent limit0 existing).1).map Listing.item_id →
      id ∉ existing.getD []) ∧
    ((resultListings (get_listings env parent limit0 existing).1).length : Int) ≤
      max (clampLimit env.listingsCount limit0) 0 := by
  unfold get_listings
  cases hrun : get_listings_run env parent limit0 existing with
  | ok st =>
    simp only [get_listings_run] at hrun
    obtain ⟨⟨_, hnodup, _, _, hdisj⟩, hlen⟩ :=
      (stInv_crawlCategories env parent (clampLimit env.listingsCount limit0)
        (existing.getD []) (categoriesToCrawl env parent)
        (initState existing (clampLimit env.listingsCount limit0))
        (stInv_initState existing (clampLimit env.listingsCount limit0))
        (by simp only [initState, List.length_nil, Nat.cast_zero]
            exact le_max_right _ 0)).1 st hrun
    exact ⟨hnodup, hdisj, hlen⟩
  | error e =>
    rcases e with ⟨st, msg⟩
    simp only [get_listings_run] at hrun
    obtain ⟨⟨_, hnodup, _, _, hdisj⟩, hlen⟩ :=
      (stInv_crawlCategories env parent (clampLimit env.listingsCount limit0)
        (existing.getD []) (categoriesToCrawl env parent)
        (initState existing (clampLimit env.listingsCount limit0))
        (stInv_initState existing (clampLimit env.listingsCount limit0))
        (by simp only [initState, List.length_nil, Nat.cast_zero]
            exact le_max_right _ 0)).2 st msg hrun
    exact ⟨hnodup, hdisj, hlen⟩

/-! ## C3: the decremented effective limit is only consulted at page
boundaries -/

/-- C3 counterexample: with requested limit 2 against a category of site
total 10 and a single page holding a detail-fetch-failing item followed by
two good ones, the call returns 2 listings while the final effective limit
(`max_listings`) is 1: the failure decremented the effective limit, yet the
item loop kept accepting until the count reached the original limit, so the
returned sequence exceeds the decremented effective limit, refuting the
claim. -/
theorem c3_counterexample :
    runFinalStats envC3 catTest 2 (some []) = some (2, 1) ∧ ¬((2 : Int) ≤ 1) := by
  constructor
  · rfl
  · decide

/-- C3 (amended): the per-item loop stops accepting once the accumulated
count reaches the original clamped limit; a per-item detail-fetch failure
decrements `max_listings`, but that decremented effective limit is tested
only by the page-level while condition, so within the current page items
keep being accepted up to the original clamped limit.  Hence the carried
listings never exceed the original clamped limit (but can exceed the
decremented `max_listings`, see the counterexample). -/
theorem c3_length_le_clamped_limit (env : CrawlEnv) (parent : Category) (limit0 : Int)
    (existing : Option ItemIds) :
    ((resultListings (get_listings env parent limit0 existing).1).length : Int) ≤
      max (clampLimit env.listingsCount limit0) 0 :=
  (get_listings_structural env parent limit0 existing).2.2

/-! ## C2: the skip-for-known decrement -/

/-- C2: when a non-sponsored raw item with a non-empty id is skipped because
its id is already known, the effective limit `max_listings` is decremented
exactly when the clamped limit equals the category's site-reported total
(the no-cap mode); with a cap strictly below the total the skip leaves the
state completely unchanged. -/
theorem c2_skip_known_decrement_iff (parent : Category) (cid limit count : Int) (now : String)
    (st : GLState) (r : RawListing)
    (hne : r.itemId ≠ "") (hadv : r.itemId.data.head? ≠ some advertisementChar)
    (hmem : r.itemId ∈ st.item_ids) :
    processItem parent cid limit count now st r =
      .ok { st with max_listings :=
              if limit = count then st.max_listings - 1 else st.max_listings } := by
  unfold processItem
  split
  · rename_i heq
    exact absurd (str_empty_of_data_nil heq) hne
  · rename_i c cs heq
    have hca : c ≠ advertisementChar := by
      rw [heq] at hadv
      simpa using hadv
    rw [if_neg hca, if_pos hmem]

/-- C2 witness: the concrete known item `rC2` at clamped limit 10 with site
total 10 (no-cap mode, decrement happens) and at clamped limit 5 with site
total 10 (capped mode, state unchanged). -/
theorem c2_witness :
    processItem catTest 322 10 10 "t" stC2 rC2 =
      .ok { stC2 with max_listings :=
              if (10 : Int) = (10 : Int) then stC2.max_listings - 1 else stC2.max_listings } ∧
    processItem catTest 322 5 10 "t" stC2 rC2 =
      .ok { stC2 with max_listings :=
              if (5 : Int) = (10 : Int) then stC2.max_listings - 1 else stC2.max_listings } :=
  ⟨c2_skip_known_decrement_iff catTest 322 10 10 "t" stC2 rC2
      (by decide) (by decide) (by decide),
   c2_skip_known_decrement_iff catTest 322 5 10 "t" stC2 rC2
      (by decide) (by decide) (by decide)⟩

/-! ## C4: category-id mismatch aborts the whole call with partial results -/

/-- C4: a raw item that reaches the category check (non-empty id, not
sponsored, not already known) and reports a category id different from the
one being crawled makes the item loop raise `UnexpectedCategoryId`,
aborting the page processing with the state held at the mismatch; and
whenever the crawling core aborts with such an error, `get_listings`
surfaces it as a `ListingsError` carrying exactly the listings accumulated
before the abort (and the caller's untouched set). -/
theorem c4_unexpected_category_aborts :
    (∀ (parent : Category) (cid limit count : Int) (now : String) (st : GLState)
        (r : RawListing) (rest : List RawListing),
      (st.listings.length : Int) ≠ limit → r.itemId ≠ "" →
      r.itemId.data.head? ≠ some advertisementChar → r.itemId ∉ st.item_ids →
      r.categoryId ≠ cid →
      processPageItems parent cid limit count now (r :: rest) st =
        .error (st, unexpectedCategoryIdMsg r.categoryId cid)) ∧
    (∀ (env : CrawlEnv) (parent : Category) (limit0 : Int) (existing : Option ItemIds)
        (st : GLState) (msg : String),
      get_listings_run env parent limit0 existing = .error (st, msg) →
      get_listings env parent limit0 existing =
        (.listingsError st.listings msg, st.caller_item_ids)) := by
  constructor
  · intro parent cid limit count now st r rest hb hne hadv hmem hc
    simp only [processPageItems]
    rw [if_neg hb]
    have hpi : processItem parent cid limit count now st r =
        .error (st, unexpectedCategoryIdMsg r.categoryId cid) := by
      unfold processItem
      split
      · rename_i heq
        exact absurd (str_empty_of_data_nil heq) hne
      · rename_i c cs heq
        have hca : c ≠ advertisementChar := by
          rw [heq] at hadv
          simpa using hadv
        rw [if_neg hca, if_neg hmem, if_pos hc]
    rw [hpi]
  · intro env parent limit0 existing st msg h
    unfold get_listings
    rw [h]

/-- C4 witness: the concrete mismatched item (reported category 999 while
crawling 322) aborts the page with the initial state, and end-to-end on
`envC4` the call surfaces `ListingsError` with the empty accumulated list. -/
theorem c4_witness :
    processPageItems catTest 322 5 10 "t" [rawTest "x1" 999 (some dTest)]
        (initState (some []) 5) =
      .error (initState (some []) 5, unexpectedCategoryIdMsg 999 322) ∧
    get_listings envC4 catTest 5 (some []) =
      (.listingsError (initState (some []) 5).listings (unexpectedCategoryIdMsg 999 322),
        (initState (some []) 5).caller_item_ids) :=
  ⟨c4_unexpected_category_aborts.1 catTest 322 5 10 "t" (initState (some []) 5)
      (rawTest "x1" 999 (some dTest)) [] (by decide) (by decide) (by decide) (by decide)
      (by decide),
   c4_unexpected_category_aborts.2 envC4 catTest 5 (some []) (initState (some []) 5)
      (unexpectedCategoryIdMsg 999 322) rfl⟩

/-! ## C10: an empty raw item id aborts the call -/

/-- C10: the sponsored-item check indexes `item_id[0]` without a guard, so
a raw item with an empty `itemId` reaching the item loop (when the count has
not hit the limit) raises `IndexError` instead of being skipped — even when
the empty id is a member of the known set, since the membership test comes
after the indexing — and end-to-end the call aborts with a `ListingsError`
carrying the listings accumulated so far (here none) in an environment
whose page holds such an item. -/
theorem c10_empty_item_id_aborts :
    (∀ (parent : Category) (cid limit count : Int) (now : String) (st : GLState)
        (r : RawListing) (rest : List RawListing),
      (st.listings.length : Int) ≠ limit → r.itemId = "" →
      processPageItems parent cid limit count now (r :: rest) st =
        .error (st, indexErrorMsg)) ∧
    get_listings envC10 catTest 5 (some [""]) =
      (.listingsError [] indexErrorMsg, some [""]) := by
  constructor
  · intro parent cid limit count now st r rest hb hne
    simp only [processPageItems]
    rw [if_neg hb]
    have hpi : processItem parent cid limit count now st r = .error (st, indexErrorMsg) := by
      unfold processItem
      split
      · rfl
      · rename_i c cs heq
        rw [hne] at heq
        exact List.noConfusion heq
    rw [hpi]
  · decide

/-- C10 witness: the concrete empty-id item aborts the page with the state
unchanged, by the theorem itself. -/
theorem c10_witness :
    processPageItems catTest 322 5 10 "t" [rawTest "" 322 (some dTest)]
        (initState (some [""]) 5) =
      .error (initState (some [""]) 5, indexErrorMsg) :=
  c10_empty_item_id_aborts.1 catTest 322 5 10 "t" (initState (some [""]) 5)
    (rawTest "" 322 (some dTest)) [] (by decide) rfl

/-! ## C1: a clean run accepts items until the limit is reached -/

theorem processItem_clean {parent : Category} {cid limit count : Int} {now : String}
    {excl : ItemIds} {st : GLState} {r : RawListing} {d : ListingDetails}
    (hclean : cleanItem excl cid r) (hd : r.details = some d)
    (hmem : r.itemId ∉ st.item_ids) :
    processItem parent cid limit count now st r =
      .ok { st with listings := st.listings ++ [buildListing parent r d now],
                    item_ids := st.item_ids ++ [r.itemId] } := by
  obtain ⟨hne, hadv, hcat, hsome, hexc⟩ := hclean
  unfold processItem
  split
  · rename_i heq
    exact absurd (str_empty_of_data_nil heq) hne
  · rename_i c cs heq
    have hca : c ≠ advertisementChar := by
      rw [heq] at hadv
      simpa using hadv
    rw [if_neg hca, if_neg hmem, if_neg (fun hcon => hcon hcat), hd]

theorem processPageItems_clean (parent : Category) (cid limit count : Int) (now : String)
    (excl : ItemIds) (page : List RawListing) :
    ∀ st : GLState,
      (∀ r ∈ page, cleanItem excl cid r) →
      (∀ r ∈ page, r.itemId ∉ st.item_ids) →
      (page.map RawListing.itemId).Nodup →
      (st.listings.length : Int) ≤ limit →
      ∃ st', processPageItems parent cid limit count now page st = .ok st' ∧
        st'.max_listings = st.max_listings ∧
        (st'.listings.length : Int) =
          min limit ((st.listings.length : Int) + (page.length : Int)) ∧
        (∀ x, x ∈ st'.item_ids → x ∈ st.item_ids ∨ x ∈ page.map RawListing.itemId) := by
  induction page with
  | nil =>
    intro st _ _ _ hlen
    refine ⟨st, by simp [processPageItems], rfl, ?_, fun x hx => Or.inl hx⟩
    simp only [List.length_nil, Nat.cast_zero, add_zero]
    omega
  | cons r rs ih =>
    intro st hclean hnotmem hnodup hlen
    by_cases hb : (st.listings.length : Int) = limit
    · refine ⟨st, ?_, rfl, ?_, fun x hx => Or.inl hx⟩
      · simp only [processPageItems]
        rw [if_pos hb]
      · simp only [List.length_cons]
        push_cast
        omega
    · have hcl := hclean r (List.mem_cons_self r rs)
      obtain ⟨d, hd⟩ := Option.isSome_iff_exists.mp hcl.2.2.2.1
      have hpi := @processItem_clean parent cid limit count now excl st r d
        hcl hd (hnotmem r (List.mem_cons_self r rs))
      have hlen₁ : (((st.listings ++ [buildListing parent r d now]).length : Nat) : Int) ≤
          limit := by
        simp only [List.length_append, List.length_cons, List.length_nil]
        push_cast
        omega
      have h2 : ∀ x ∈ rs, x.itemId ∉ st.item_ids ++ [r.itemId] := by
        intro x hx hcon
        rcases List.mem_append.mp hcon with hcon | hcon
        · exact hnotmem x (List.mem_cons_of_mem r hx) hcon
        · rw [List.mem_singleton] at hcon
          rw [List.map_cons, List.nodup_cons] at hnodup
          exact hnodup.1 (hcon ▸ List.mem_map_of_mem RawListing.itemId hx)
      have h3 : (rs.map RawListing.itemId).Nodup := by
        rw [List.map_cons, List.nodup_cons] at hnodup
        exact hnodup.2
      obtain ⟨st', hrun, hmax, hlenf, hids⟩ :=
        ih { st with listings := st.listings ++ [buildListing parent r d now],
                     item_ids := st.item_ids ++ [r.itemId] }
          (fun x hx => hclean x (List.mem_cons_of_mem r hx)) h2 h3 hlen₁
      refine ⟨st', ?_, hmax, ?_, ?_⟩
      · simp only [processPageItems]
        rw [if_neg hb, hpi]
        exact hrun
      · rw [hlenf]
        show min limit (((st.listings ++ [buildListing parent r d now]).length : Int) +
          (rs.length : Int)) = _
        simp only [List.length_append, List.length_cons, List.length_nil]
        push_cast
        omega
      · intro x hx
        rcases hids x hx with hx1 | hx1
        · rcases List.mem_append.mp hx1 with hx2 | hx2
          · exact Or.inl hx2
          · rw [List.mem_singleton] at hx2
            refine Or.inr ?_
            rw [List.map_cons]
            exact hx2 ▸ List.mem_cons_self _ _
        · refine Or.inr ?_
          rw [List.map_cons]
          exact List.mem_cons_of_mem _ hx1

theorem crawlCategoryPages_clean (parent c : Category) (limit count : Int) (now : String)
    (excl : ItemIds) (pages : List (List RawListing)) :
    ∀ st : GLState,
      (∀ pg ∈ pages, pg ≠ [] ∧ ∀ r ∈ pg, cleanItem excl c.id r) →
      (∀ pg ∈ pages, ∀ r ∈ pg, r.itemId ∉ st.item_ids) →
      (pages.flatten.map RawListing.itemId).Nodup →
      st.max_listings = limit →
      (st.listings.length : Int) ≤ limit →
      ∃ st', crawlCategoryPages parent c limit count now pages st = .ok st' ∧
        st'.max_listings = limit ∧
        (st'.listings.length : Int) =
          min limit ((st.listings.length : Int) + (pages.flatten.length : Int)) ∧
        (∀ x, x ∈ st'.item_ids →
          x ∈ st.item_ids ∨ x ∈ pages.flatten.map RawListing.itemId) := by
  induction pages with
  | nil =>
    intro st _ _ _ hmax hlen
    refine ⟨st, by simp [crawlCategoryPages], hmax, ?_, fun x hx => Or.inl hx⟩
    simp only [List.flatten_nil, List.length_nil, Nat.cast_zero, add_zero]
    omega
  | cons page rest ih =>
    intro st hclean hnot hnodup hmax hlen
    have hsplit : (page.map RawListing.itemId).Nodup ∧
        (rest.flatten.map RawListing.itemId).Nodup ∧
        List.Disjoint (page.map RawListing.itemId) (rest.flatten.map RawListing.itemId) := by
      rw [List.flatten_cons, List.map_append, List.nodup_append] at hnodup
      exact hnodup
    by_cases hw : (st.listings.length : Int) < st.max_listings
    · have hne : page ≠ [] := (hclean page (List.mem_cons_self _ _)).1
      have hee : page.isEmpty = false := by
        cases page with
        | nil => exact absurd rfl hne
        | cons a as => rfl
      obtain ⟨stp, hrunp, hmaxp, hlenp, hidsp⟩ :=
        processPageItems_clean parent c.id limit count now excl page st
          (fun r hr => (hclean page (List.mem_cons_self _ _)).2 r hr)
          (fun r hr => hnot page (List.mem_cons_self _ _) r hr)
          hsplit.1 hlen
      have hnotrest : ∀ pg ∈ rest, ∀ r ∈ pg, r.itemId ∉ stp.item_ids := by
        intro pg hpg r hr hcon
        rcases hidsp _ hcon with hx | hx
        · exact hnot pg (List.mem_cons_of_mem _ hpg) r hr hx
        · refine hsplit.2.2 hx ?_
          exact List.mem_map_of_mem RawListing.itemId
            (List.mem_flatten.mpr ⟨pg, hpg, hr⟩)
      obtain ⟨st', hrun', hmax', hlen', hids'⟩ :=
        ih stp (fun pg hpg => hclean pg (List.mem_cons_of_mem _ hpg)) hnotrest
          hsplit.2.1 (hmaxp.trans hmax)
          (by rw [hlenp]; exact min_le_left _ _)
      refine ⟨st', ?_, hmax', ?_, ?_⟩
      · simp only [crawlCategoryPages]
        rw [if_pos hw, hee]
        simp only [Bool.false_eq_true, if_false]
        rw [hrunp]
        exact hrun'
      · rw [hlen', hlenp]
        simp only [List.flatten_cons, List.length_append]
        push_cast
        omega
      · intro x hx
        rcases hids' x hx with hx1 | hx1
        · rcases hidsp x hx1 with hx2 | hx2
          · exact Or.inl hx2
          · refine Or.inr ?_
            simp only [List.flatten_cons, List.map_append, List.mem_append]
            exact Or.inl hx2
        · refine Or.inr ?_
          simp only [List.flatten_cons, List.map_append, List.mem_append]
          exact Or.inr hx1
    · have hleq : (st.listings.length : Int) = limit := by
        rw [hmax] at hw
        omega
      refine ⟨st, ?_, hmax, ?_, fun x hx => Or.inl hx⟩
      · simp only [crawlCategoryPages]
        rw [if_neg hw]
      · have hnn : (0 : Int) ≤ ((page :: rest).flatten.length : Int) := by positivity
        omega

theorem crawlCategories_clean (env : CrawlEnv) (parent : Category) (limit : Int)
    (excl : ItemIds) (cats : List Category) :
    ∀ st : GLState,
      (∀ c ∈ cats, ∀ pg ∈ env.pages c, pg ≠ [] ∧ ∀ r ∈ pg, cleanItem excl c.id r) →
      (∀ c ∈ cats, ∀ pg ∈ env.pages c, ∀ r ∈ pg, r.itemId ∉ st.item_ids) →
      (((cats.flatMap fun c => (env.pages c).flatten).map RawListing.itemId).Nodup) →
      st.max_listings = limit →
      (st.listings.length : Int) ≤ limit →
      ∃ st', crawlCategories env parent limit cats st = .ok st' ∧
        st'.max_listings = limit ∧
        (st'.listings.length : Int) =
          min limit ((st.listings.length : Int) +
            (((cats.flatMap fun c => (env.pages c).flatten).length : Nat) : Int)) ∧
        (∀ x, x ∈ st'.item_ids → x ∈ st.item_ids ∨
          x ∈ (cats.flatMap fun c => (env.pages c).flatten).map RawListing.itemId) := by
  induction cats with
  | nil =>
    intro st _ _ _ hmax hlen
    refine ⟨st, by simp [crawlCategories], hmax, ?_, fun x hx => Or.inl hx⟩
    simp only [List.flatMap_nil, List.length_nil, Nat.cast_zero, add_zero]
    omega
  | cons c cs ih =>
    intro st hclean hnot hnodup hmax hlen
    have hsplit : (((env.pages c).flatten.map RawListing.itemId).Nodup) ∧
        (((cs.flatMap fun x => (env.pages x).flatten).map RawListing.itemId).Nodup) ∧
        List.Disjoint ((env.pages c).flatten.map RawListing.itemId)
          ((cs.flatMap fun x => (env.pages x).flatten).map RawListing.itemId) := by
      rw [List.flatMap_cons, List.map_append, List.nodup_append] at hnodup
      exact hnodup
    obtain ⟨stc, hrunc, hmaxc, hlenc, hidsc⟩ :=
      crawlCategoryPages_clean parent c limit env.listingsCount env.now excl (env.pages c) st
        (fun pg hpg => hclean c (List.mem_cons_self _ _) pg hpg)
        (fun pg hpg => hnot c (List.mem_cons_self _ _) pg hpg)
        hsplit.1 hmax hlen
    have hnotcs : ∀ x ∈ cs, ∀ pg ∈ env.pages x, ∀ r ∈ pg, r.itemId ∉ stc.item_ids := by
      intro x hx pg hpg r hr hcon
      rcases hidsc _ hcon with hy | hy
      · exact hnot x (List.mem_cons_of_mem _ hx) pg hpg r hr hy
      · refine hsplit.2.2 hy ?_
        refine List.mem_map_of_mem RawListing.itemId ?_
        refine List.mem_flatMap.mpr ⟨x, hx, ?_⟩
        exact List.mem_flatten.mpr ⟨pg, hpg, hr⟩
    obtain ⟨st', hrun', hmax', hlen', hids'⟩ :=
      ih stc (fun x hx => hclean x (List.mem_cons_of_mem _ hx)) hnotcs hsplit.2.1 hmaxc
        (by rw [hlenc]; exact min_le_left _ _)
    refine ⟨st', ?_, hmax', ?_, ?_⟩
    · simp only [crawlCategories]
      rw [hrunc]
      exact hrun'
    · rw [hlen', hlenc]
      simp only [List.flatMap_cons, List.length_append]
      push_cast
      omega
    · intro x hx
      rcases hids' x hx with hx1 | hx1
      · rcases hidsc x hx1 with hx2 | hx2
        · exact Or.inl hx2
        · refine Or.inr ?_
          simp only [List.flatMap_cons, List.map_append, List.mem_append]
          exact Or.inl hx2
      · refine Or.inr ?_
        simp only [List.flatMap_cons, List.map_append, List.mem_append]
        exact Or.inr hx1

theorem clampLimit_eq_self {count L : Int} (hpos : 0 < L) (hle : L ≤ count) :
    clampLimit count L = L := by
  unfold clampLimit
  rw [if_neg (by omega : ¬(L > count ∨ L = 0))]

/-- C1: with a positive requested limit `L` no larger than the site-reported
category total, an environment all of whose raw items are clean (well-formed
category ids, non-empty non-sponsored ids, detail-fetchable, outside the
exclusion set, pairwise-distinct ids, no empty result pages) and offering at
least `L` such items makes `get_listings` return normally with exactly `L`
listings, whose `item_id`s are pairwise distinct and disjoint from the
exclusion set. -/
theorem c1_get_listings_reaches_limit (env : CrawlEnv) (parent : Category) (L : Int)
    (excl : ItemIds)
    (hpos : 0 < L) (hle : L ≤ env.listingsCount)
    (hpages : ∀ c ∈ categoriesToCrawl env parent, ∀ pg ∈ env.pages c,
      pg ≠ [] ∧ ∀ r ∈ pg, cleanItem excl c.id r)
    (hnodup : ((crawlStream env parent).map RawListing.itemId).Nodup)
    (hcount : L ≤ ((crawlStream env parent).length : Int)) :
    ∃ out, (get_listings env parent L (some excl)).1 = GLResult.ok out ∧
      (out.length : Int) = L ∧ (out.map Listing.item_id).Nodup ∧
      ∀ id ∈ out.map Listing.item_id, id ∉ excl := by
  have hclamp : clampLimit env.listingsCount L = L := clampLimit_eq_self hpos hle
  have hinit_not : ∀ c ∈ categoriesToCrawl env parent, ∀ pg ∈ env.pages c, ∀ r ∈ pg,
      r.itemId ∉ (initState (some excl) L).item_ids := by
    intro c hc pg hpg r hr
    exact ((hpages c hc pg hpg).2 r hr).2.2.2.2
  obtain ⟨st', hrun, hmax', hlen', hids'⟩ :=
    crawlCategories_clean env parent L excl (categoriesToCrawl env parent)
      (initState (some excl) L) hpages hinit_not hnodup rfl
      (by show ((0 : Nat) : Int) ≤ L; omega)
  have hlen : (st'.listings.length : Int) = L := by
    rw [hlen']
    have h0 : (((initState (some excl) L).listings.length : Nat) : Int) = 0 := rfl
    have hsl : ((categoriesToCrawl env parent).flatMap fun c => (env.pages c).flatten) =
        crawlStream env parent := rfl
    rw [h0, hsl]
    omega
  have hgl : get_listings env parent L (some excl) = (.ok st'.listings, st'.caller_item_ids) := by
    unfold get_listings
    have hr : get_listings_run env parent L (some excl) = .ok st' := by
      show crawlCategories env parent (clampLimit env.listingsCount L)
        (categoriesToCrawl env parent)
        (initState (some excl) (clampLimit env.listingsCount L)) = .ok st'
      rw [hclamp]
      exact hrun
    rw [hr]
  have hs := get_listings_structural env parent L (some excl)
  rw [hgl] at hs
  simp only [resultListings, Option.getD_some] at hs
  exact ⟨st'.listings, by rw [hgl], hlen, hs.1, hs.2.1⟩

/-- C1 witness: the concrete clean environment `envC1` (site total 3, three
clean items over two pages, exclusion set containing an unrelated id) at
requested limit 2. -/
theorem c1_witness :
    ∃ out, (get_listings envC1 catTest 2 (some ["old1"])).1 = GLResult.ok out ∧
      (out.length : Int) = 2 ∧ (out.map Listing.item_id).Nodup ∧
      ∀ id ∈ out.map Listing.item_id, id ∉ ["old1"] :=
  c1_get_listings_reaches_limit envC1 catTest 2 ["old1"] (by decide) (by decide)
    (by decide) (by decide) (by decide)

/-! ## Lemmas about the keep-last deduplication -/

theorem dropDuplicatesLast_sublist {α : Type} (key : α → String) :
    ∀ l : List α, (dropDuplicatesLast key l).Sublist l
  | [] => .slnil
  | r :: rs => by
    unfold dropDuplicatesLast
    split
    · exact (dropDuplicatesLast_sublist key rs).cons r
    · exact (dropDuplicatesLast_sublist key rs).cons₂ r

theorem mem_of_mem_dropDuplicatesLast {α : Type} {key : α → String} {x : α} {l : List α}
    (h : x ∈ dropDuplicatesLast key l) : x ∈ l :=
  (dropDuplicatesLast_sublist key l).mem h

theorem dropDuplicatesLast_keys_nodup {α : Type} (key : α → String) :
    ∀ l : List α, ((dropDuplicatesLast key l).map key).Nodup
  | [] => List.nodup_nil
  | r :: rs => by
    unfold dropDuplicatesLast
    split
    · exact dropDuplicatesLast_keys_nodup key rs
    · rename_i hany
      rw [List.map_cons, List.nodup_cons]
      refine ⟨?_, dropDuplicatesLast_keys_nodup key rs⟩
      intro hmem
      rcases List.mem_map.mp hmem with ⟨x, hx, hkey⟩
      exact hany (List.any_eq_true.mpr
        ⟨x, mem_of_mem_dropDuplicatesLast hx, beq_iff_eq.mpr hkey⟩)

theorem dropDuplicatesLast_eq_self {α : Type} (key : α → String) :
    ∀ l : List α, (l.map key).Nodup → dropDuplicatesLast key l = l
  | [], _ => rfl
  | r :: rs, h => by
    rw [List.map_cons, List.nodup_cons] at h
    unfold dropDuplicatesLast
    split
    · rename_i hany
      rcases List.any_eq_true.mp hany with ⟨x, hx, hkey⟩
      exact absurd (List.mem_map.mpr ⟨x, hx, beq_iff_eq.mp hkey⟩) h.1
    · rw [dropDuplicatesLast_eq_self key rs h.2]

theorem dropDuplicatesLast_idem {α : Type} (key : α → String) (l : List α) :
    dropDuplicatesLast key (dropDuplicatesLast key l) = dropDuplicatesLast key l :=
  dropDuplicatesLast_eq_self key _ (dropDuplicatesLast_keys_nodup key l)

theorem dropDuplicatesLast_filter_key {α : Type} (key : α → String) (id : String) :
    ∀ l : List α, (dropDuplicatesLast key l).filter (fun x => key x == id) =
      ((l.filter (fun x => key x == id)).getLast?).toList
  | [] => rfl
  | r :: rs => by
    unfold dropDuplicatesLast
    split
    · rename_i hany
      rw [dropDuplicatesLast_filter_key key id rs, List.filter_cons]
      split
      · rename_i hkr
        rcases List.any_eq_true.mp hany with ⟨x, hx, hkey⟩
        have hxf : x ∈ rs.filter (fun y => key y == id) := by
          refine List.mem_filter.mpr ⟨hx, ?_⟩
          rw [beq_iff_eq.mp hkey]
          exact hkr
        rcases hne : rs.filter (fun y => key y == id) with _ | ⟨c, t⟩
        · rw [hne] at hxf; cases hxf
        · rw [List.getLast?_cons_cons]
      · rfl
    · rename_i hany
      rw [List.filter_cons, List.filter_cons]
      by_cases hkr : (key r == id) = true
      · rw [if_pos hkr, if_pos hkr]
        have hrs : rs.filter (fun y => key y == id) = [] := by
          rw [List.filter_eq_nil_iff]
          intro x hx hkx
          exact hany (List.any_eq_true.mpr
            ⟨x, hx, beq_iff_eq.mpr ((beq_iff_eq.mp hkx).trans (beq_iff_eq.mp hkr).symm)⟩)
        have hdd : (dropDuplicatesLast key rs).filter (fun y => key y == id) = [] := by
          rw [List.filter_eq_nil_iff]
          intro x hx hkx
          have := List.filter_eq_nil_iff.mp hrs x (mem_of_mem_dropDuplicatesLast hx)
          exact this hkx
        rw [hdd, hrs]
        rfl
      · rw [if_neg hkr, if_neg hkr]
        exact dropDuplicatesLast_filter_key key id rs

/-- C6: `dedupe` is idempotent, the surviving rows keep their relative input
order (the result is a sublist of the input), and for every `item_id` the
surviving rows are exactly the last input occurrence of that id (empty when
the id does not occur). -/
theorem c6_dedupe_idempotent_keep_last (X : List Listing) (id : String) :
    remove_duplicate_listings (remove_duplicate_listings X) = remove_duplicate_listings X ∧
    (remove_duplicate_listings X).Sublist X ∧
    (remove_duplicate_listings X).filter (fun r => r.item_id == id) =
      ((X.filter (fun r => r.item_id == id)).getLast?).toList :=
  ⟨dropDuplicatesLast_idem Listing.item_id X,
   dropDuplicatesLast_sublist Listing.item_id X,
   dropDuplicatesLast_filter_key Listing.item_id id X⟩

/-! ## Time arithmetic -/

theorem diff_hours_of_eq {first last d : Int} (h : last - first = d) :
    diff_hours first last =
      ((d.fdiv microsPerDay : Int) : ℚ) * 24 +
        (((d.fmod microsPerDay).fdiv microsPerSecond : Int) : ℚ) / 3600 := by
  unfold diff_hours
  rw [h]

/-- C8: `diff_hours` uses the calendar day/second decomposition of the
duration, and for two timestamps exactly 0.5, 1.0, 2.5, 3.99, 4.33 or 5.00
hours apart it returns that offset exactly. -/
theorem c8_diff_hours_exact_offsets (a : Int) :
    diff_hours a (a + 1800 * microsPerSecond) = 1 / 2 ∧
    diff_hours a (a + 3600 * microsPerSecond) = 1 ∧
    diff_hours a (a + 9000 * microsPerSecond) = 5 / 2 ∧
    diff_hours a (a + 14364 * microsPerSecond) = 399 / 100 ∧
    diff_hours a (a + 15588 * microsPerSecond) = 433 / 100 ∧
    diff_hours a (a + 18000 * microsPerSecond) = 5 := by
  have h0 : ∀ d : Int, a + d - a = d := fun d => by ring
  refine ⟨?_, ?_, ?_, ?_, ?_, ?_⟩
  · rw [diff_hours_of_eq (h0 _)]
    rw [show ((1800 : Int) * microsPerSecond).fdiv microsPerDay = 0 from by decide,
        show (((1800 : Int) * microsPerSecond).fmod microsPerDay).fdiv microsPerSecond = 1800
          from by decide]
    norm_num
  · rw [diff_hours_of_eq (h0 _)]
    rw [show ((3600 : Int) * microsPerSecond).fdiv microsPerDay = 0 from by decide,
        show (((3600 : Int) * microsPerSecond).fmod microsPerDay).fdiv microsPerSecond = 3600
          from by decide]
    norm_num
  · rw [diff_hours_of_eq (h0 _)]
    rw [show ((9000 : Int) * microsPerSecond).fdiv microsPerDay = 0 from by decide,
        show (((9000 : Int) * microsPerSecond).fmod microsPerDay).fdiv microsPerSecond = 9000
          from by decide]
    norm_num
  · rw [diff_hours_of_eq (h0 _)]
    rw [show ((14364 : Int) * microsPerSecond).fdiv microsPerDay = 0 from by decide,
        show (((14364 : Int) * microsPerSecond).fmod microsPerDay).fdiv microsPerSecond = 14364
          from by decide]
    norm_num
  · rw [diff_hours_of_eq (h0 _)]
    rw [show ((15588 : Int) * microsPerSecond).fdiv microsPerDay = 0 from by decide,
        show (((15588 : Int) * microsPerSecond).fmod microsPerDay).fdiv microsPerSecond = 15588
          from by decide]
    norm_num
  · rw [diff_hours_of_eq (h0 _)]
    rw [show ((18000 : Int) * microsPerSecond).fdiv microsPerDay = 0 from by decide,
        show (((18000 : Int) * microsPerSecond).fmod microsPerDay).fdiv microsPerSecond = 18000
          from by decide]
    norm_num

/-- C5: the timestamp `get_utc_now` writes (and that `main` later feeds to
`datetime.fromisoformat` before calling `diff_hours` with the string-typed
`now_datetime`) carries both an explicit `+00:00` offset and an appended
`Z`, a combination `fromisoformat` rejects, so the exclusion-set loop of
`main` crashes instead of computing the claimed set. -/
theorem c5_get_utc_now_double_timezone :
    get_utc_now "2026-01-01T12:00:00+00:00" = "2026-01-01T12:00:00+00:00Z" ∧
    get_utc_now "2026-01-01T12:00:00+00:00" = "2026-01-01T12:00:00" ++ "+00:00" ++ "Z" :=
  ⟨rfl, by decide⟩

/-! ## Parent-category discovery -/

/-- C7 counterexample: on a landing page with zero category elements,
`get_parent_categories` returns successfully with the empty set, refuting
the claim that it never returns successfully with an empty category set
(and hence that it itself fails with `CategoriesError`). -/
theorem c7_counterexample :
    get_parent_categories MARTKPLAATS_BASE_URL [] = .ok [] := rfl

/-- C7 (amended): `get_parent_categories` itself returns the possibly-empty
discovered set; the zero-categories failure lives in `main`, which raises
`CategoriesError` (fatally, it is uncaught) exactly when the returned set is
empty and otherwise proceeds with that same set. -/
theorem c7_zero_categories_check (cats : List Category) :
    ((checkParentCategories cats = .error (.mk "No parent categories found")) ↔ cats = []) ∧
    ((checkParentCategories cats = .ok cats) ↔ cats ≠ []) ∧
    get_parent_categories MARTKPLAATS_BASE_URL [] = .ok [] := by
  refine ⟨?_, ?_, rfl⟩ <;> cases cats <;> simp [checkParentCategories]

end MP
